import Mathlib

/-!
Shallow embedding of `src/hw_8_1.py` (a command-line contact manager).

Conventions of the embedding:
* Python strings are Lean `String`s (sequences of `Char`); the digit tests
  (`str.isdigit`, the regex class in the source) are modelled over their common
  decimal-digit meaning, which coincides with Python on the input alphabet the
  program's dispatcher can produce.
* Python exceptions (`ValueError`, caught as validation errors) are modelled
  with `Except String` for constructors and with an `Option String` error
  component for mutating methods: a method on an object becomes a function
  `state → state × Option String`, returning the state as it is when the
  exception propagates, paired with `some message`.
* `datetime.date` values are `Date` records (day, month, year as `Nat`);
  Python compares dates lexicographically by (year, month, day) and subtracts
  them via their ordinal day number, and both are modelled explicitly below.
* The dict underlying `AddressBook` (a `UserDict`) is an association list with
  CPython dict semantics: assigning to an existing key overwrites in place
  (keeping its position), assigning a fresh key appends at the end.
-/

/-- Proleptic-Gregorian leap-year test, as used by Python's `datetime`
(`year % 4 == 0 and (year % 100 != 0 or year % 400 == 0)`). -/
def isLeapYear (y : Nat) : Bool :=
  y % 4 == 0 && (y % 100 != 0 || y % 400 == 0)

/-- Number of days of month `m` in year `y`, as in Python's `datetime`. -/
def daysInMonth (y m : Nat) : Nat :=
  if m = 2 then (if isLeapYear y then 29 else 28)
  else if m = 4 ∨ m = 6 ∨ m = 9 ∨ m = 11 then 30
  else 31

/-- A calendar date as carried by a Python `datetime.date`: day, month, year. -/
structure Date where
  day : Nat
  month : Nat
  year : Nat
  deriving DecidableEq, Repr

/-- The validity check performed by the `datetime.date` constructor (and hence
by `date.replace` and at the end of `datetime.strptime`): the year must lie in
`MINYEAR..MAXYEAR = 1..9999`, the month in `1..12`, and the day in
`1..days_in_month(year, month)`. -/
abbrev pyDateValid (y m d : Nat) : Prop :=
  1 ≤ y ∧ y ≤ 9999 ∧ 1 ≤ m ∧ m ≤ 12 ∧ 1 ≤ d ∧ d ≤ daysInMonth y m

/-- Days before month `m` in year `y`. -/
def daysBeforeMonth (y m : Nat) : Nat :=
  ((List.range (m - 1)).map (fun i => daysInMonth y (i + 1))).sum

/-- The ordinal day number of a date (Python's `date.toordinal`): day 1 is
01.01.0001.  Subtraction of two dates (`date - date`, a `timedelta`) is the
difference of their ordinals. -/
def toOrdinal (dt : Date) : Nat :=
  365 * (dt.year - 1) + (dt.year - 1) / 4 - (dt.year - 1) / 100 + (dt.year - 1) / 400
    + daysBeforeMonth dt.year dt.month + dt.day

/-- Python's `date.__lt__`: lexicographic comparison of (year, month, day). -/
abbrev dateLt (a b : Date) : Prop :=
  a.year < b.year ∨ (a.year = b.year ∧
    (a.month < b.month ∨ (a.month = b.month ∧ a.day < b.day)))

/-- Model of `date.replace(year=y)` from `src/hw_8_1.py` lines 71 and 73: rebuilds the
date with the new year, re-running the constructor's validity check; raises
`ValueError` (e.g. for February 29 in a non-leap year) if it fails. -/
def dateReplaceYear (dt : Date) (y : Nat) : Except String Date :=
  if pyDateValid y dt.month dt.day then Except.ok ⟨dt.day, dt.month, y⟩
  else Except.error "day is out of range for month"

/-! Section: the percent-d, percent-m, percent-Y parser of `datetime.strptime`.

CPython's `_strptime` compiles the format into the anchored regex
`(3[01]|[12]\d|0[1-9]|[1-9])\.(1[0-2]|0[1-9]|[1-9])\.(\d\d\d\d)` and requires
it to consume the whole string, then feeds the captured numbers to the
`datetime` constructor.  Because every captured token consists of digit
characters only, a string matches that regex exactly when splitting it at its
dots yields three segments that are, in order, a valid day token (one digit
`1-9`, or two digits with value `1..31`), a valid month token (one digit
`1-9`, or two digits with value `1..12`) and a four-digit year token; the
functions below implement that decomposition directly. -/

/-- Split a character list at every dot (the two literal `.` of the format). -/
def splitDots : List Char → List (List Char)
  | [] => [[]]
  | c :: rest =>
    if c = '.' then [] :: splitDots rest
    else
      match splitDots rest with
      | [] => [[c]]
      | seg :: segs => (c :: seg) :: segs

/-- Numeric value of a decimal digit character. -/
def digitVal (c : Char) : Nat := c.toNat - 48

/-- The day token of the format regex: `3[01]|[12]\d|0[1-9]|[1-9]`, i.e. one
digit `1-9` or two digits with value between 1 and 31. -/
def dayTok : List Char → Option Nat
  | [c] => if '1' ≤ c ∧ c ≤ '9' then some (digitVal c) else none
  | [c1, c2] =>
    if c1.isDigit ∧ c2.isDigit then
      if 1 ≤ digitVal c1 * 10 + digitVal c2 ∧ digitVal c1 * 10 + digitVal c2 ≤ 31 then
        some (digitVal c1 * 10 + digitVal c2)
      else none
    else none
  | _ => none

/-- The month token of the format regex: `1[0-2]|0[1-9]|[1-9]`, i.e. one digit
`1-9` or two digits with value between 1 and 12. -/
def monthTok : List Char → Option Nat
  | [c] => if '1' ≤ c ∧ c ≤ '9' then some (digitVal c) else none
  | [c1, c2] =>
    if c1.isDigit ∧ c2.isDigit then
      if 1 ≤ digitVal c1 * 10 + digitVal c2 ∧ digitVal c1 * 10 + digitVal c2 ≤ 12 then
        some (digitVal c1 * 10 + digitVal c2)
      else none
    else none
  | _ => none

/-- The year token of the format regex: exactly four digits (`\d\d\d\d`). -/
def yearTok : List Char → Option Nat
  | [c1, c2, c3, c4] =>
    if c1.isDigit ∧ c2.isDigit ∧ c3.isDigit ∧ c4.isDigit then
      some ((((digitVal c1) * 10 + digitVal c2) * 10 + digitVal c3) * 10 + digitVal c4)
    else none
  | _ => none

/-- Model of `datetime.strptime(s, "%d.%m.%Y")`: match the compiled format regex
against the whole string and run the extracted numbers through the `datetime`
constructor; `none` models the `ValueError` raised on either failure. -/
def pyStrptimeDMY (s : String) : Option Date :=
  match splitDots s.data with
  | [a, b, c] =>
    match dayTok a, monthTok b, yearTok c with
    | some d, some m, some y => if pyDateValid y m d then some ⟨d, m, y⟩ else none
    | _, _, _ => none
  | _ => none

/-! Section: field types (`src/hw_8_1.py` lines 5-27). -/

/-- Python's `str.isdigit` on the program's input alphabet: a nonempty string
all of whose characters are decimal digits. -/
def pyIsdigit (s : String) : Bool :=
  !s.data.isEmpty && s.data.all Char.isDigit

/-- A `Phone` field object: wraps the validated string
(`Field.value`).  Note that `Phone` defines no `__eq__` in the source, so a
Python `==` between a `str` and a `Phone` instance is never true. -/
structure Phone where
  value : String
  deriving DecidableEq, Repr

/-- Model of `Phone.__init__` (lines 15-19): raises
`ValueError("Phone number must contain 10 digits.")` unless
`value.isdigit() and len(value) == 10`. -/
def mkPhone (s : String) : Except String Phone :=
  if pyIsdigit s = false ∨ s.length ≠ 10 then
    Except.error "Phone number must contain 10 digits."
  else Except.ok ⟨s⟩

/-- Model of `Field.__str__` (lines 9-10) applied to a `Phone`: renders the stored
string value. -/
def phoneStr (p : Phone) : String := p.value

/-- Model of `Birthday.__init__` (lines 21-27): validates the raw string with
`datetime.strptime(value, "%d.%m.%Y")` and stores the raw string itself. -/
def mkBirthday (s : String) : Except String String :=
  match pyStrptimeDMY s with
  | some _ => Except.ok s
  | none => Except.error "Invalid date format. Use DD.MM.YYYY"

/-! Section: `Record` (`src/hw_8_1.py` lines 29-53). -/

/-- A contact record: `self.name` (a `Name` field, i.e. a plain string),
`self.phones` (a list of `Phone` objects) and `self.birthday` (a validated
date string, or `none`). -/
structure Record where
  name : String
  phones : List Phone
  birthday : Option String
  deriving DecidableEq, Repr

/-- Model of `Record.__init__(name)` (lines 30-33). -/
def Record.mkNew (name : String) : Record :=
  ⟨name, [], none⟩

/-- The Python expression `phone == p` where `phone` is a `str` and `p` a
`Phone` object: `str.__eq__` returns `NotImplemented` for a non-`str`
argument and `Phone` inherits `object.__eq__` (identity), so comparing a
string against any `Phone` element of `self.phones` is always `False`. -/
def pyStrEqPhone (_s : String) (_p : Phone) : Bool := false

/-- Model of `Record.add_phone` (lines 35-37):
`if phone not in self.phones: self.phones.append(Phone(phone))`.
The membership test compares the `str` argument against `Phone` objects (see
`pyStrEqPhone`).  Returns the updated record and the propagated
`ValueError` message, if any. -/
def Record.add_phone (r : Record) (phone : String) : Record × Option String :=
  if r.phones.any (fun p => pyStrEqPhone phone p) then (r, none)
  else
    match mkPhone phone with
    | Except.error e => (r, some e)
    | Except.ok p => ({ r with phones := r.phones ++ [p] }, none)

/-- Model of `Record.edit_phone` (lines 42-45):
`if old_phone in self.phones: idx = self.phones.index(old_phone);
self.phones[idx] = Phone(new_phone)`.  The membership test again compares a
`str` against `Phone` objects (see `pyStrEqPhone`). -/
def Record.edit_phone (r : Record) (old_phone new_phone : String) : Record × Option String :=
  if r.phones.any (fun p => pyStrEqPhone old_phone p) then
    match r.phones.findIdx? (fun p => pyStrEqPhone old_phone p) with
    | none => (r, some "x is not in list")
    | some idx =>
      match mkPhone new_phone with
      | Except.error e => (r, some e)
      | Except.ok p => ({ r with phones := r.phones.set idx p }, none)
  else (r, none)

/-- Model of `Record.add_birthday` (lines 47-48): `self.birthday = Birthday(birthday)`;
the constructor runs (and may raise) before the assignment. -/
def Record.add_birthday (r : Record) (birthday : String) : Record × Option String :=
  match mkBirthday birthday with
  | Except.error e => (r, some e)
  | Except.ok v => ({ r with birthday := some v }, none)

/-! Section: `AddressBook` (`src/hw_8_1.py` lines 55-76). -/

/-- The `UserDict` data of an `AddressBook`: an insertion-ordered mapping from
name to record. -/
structure AddressBook where
  data : List (String × Record)
  deriving DecidableEq, Repr

/-- CPython dict assignment `data[k] = v`: overwrite an existing key in place,
otherwise append the new entry at the end. -/
def dictSet (l : List (String × Record)) (k : String) (v : Record) : List (String × Record) :=
  match l with
  | [] => [(k, v)]
  | (k0, v0) :: rest => if k0 = k then (k, v) :: rest else (k0, v0) :: dictSet rest k v

/-- Dict lookup `data.get(k)`. -/
def dictGet : List (String × Record) → String → Option Record
  | [], _ => none
  | (k0, v0) :: rest, k => if k0 = k then some v0 else dictGet rest k

/-- Model of `AddressBook.add_record` (lines 56-57):
`self.data[record.name.value] = record`. -/
def AddressBook.add_record (book : AddressBook) (record : Record) : AddressBook :=
  ⟨dictSet book.data record.name record⟩

/-- Model of `AddressBook.find` (lines 59-60): `self.data.get(name)`. -/
def AddressBook.find (book : AddressBook) (name : String) : Option Record :=
  dictGet book.data name

/-- Model of `AddressBook.delete` (lines 62-64): `if name in self.data: del
self.data[name]` — remove the entry with that key, if present. -/
def AddressBook.delete (book : AddressBook) (name : String) : AddressBook :=
  ⟨book.data.eraseP (fun kr => decide (kr.1 = name))⟩

/-- The occurrence computation of `get_upcoming_birthdays` (lines 71-73) for
one stored birthday string: parse it, move it to `today`'s year, and roll it
one year forward when it already precedes `today`.  Errors model the
`ValueError`s of `strptime` and of `replace(year=...)`. -/
def occOf (b : String) (today : Date) : Except String Date :=
  match pyStrptimeDMY b with
  | none => Except.error "Invalid date format for strptime"
  | some d0 =>
    match dateReplaceYear d0 today.year with
    | Except.error e => Except.error e
    | Except.ok d1 =>
      if dateLt d1 today then dateReplaceYear d1 (today.year + 1)
      else Except.ok d1

/-- The window test of line 74: `birthday_date - today <= timedelta(days=7)`,
i.e. the ordinal difference is at most 7 days. -/
abbrev inWindow (occ today : Date) : Prop :=
  (toOrdinal occ : Int) - (toOrdinal today : Int) ≤ 7

/-- Model of `strftime("%d.%m.%Y")` (line 75): zero-padded day and month, four-digit
year (all occurrence years produced by the program are four-digit). -/
def pad2 (n : Nat) : String :=
  if n < 10 then "0" ++ toString n else toString n

/-- Zero-pad a year to four digits. -/
def pad4 (n : Nat) : String :=
  if n < 10 then "000" ++ toString n
  else if n < 100 then "00" ++ toString n
  else if n < 1000 then "0" ++ toString n
  else toString n

/-- Format an occurrence date as `DD.MM.YYYY` (line 75). -/
def strftimeDMY (d : Date) : String :=
  pad2 d.day ++ "." ++ pad2 d.month ++ "." ++ pad4 d.year

/-- The body of the `for record in self.values()` loop of
`get_upcoming_birthdays` (lines 69-75) for one record, combined with the
outcome `acc` for the remaining records: a record without a birthday
contributes nothing; a failing occurrence computation raises immediately
(before the rest of the iteration is reached); otherwise the record's pair is
prepended exactly when the window test passes. -/
def upcomingStep (today : Date) (r : Record)
    (acc : Except String (List (String × String))) :
    Except String (List (String × String)) :=
  match r.birthday with
  | none => acc
  | some b =>
    match occOf b today with
    | Except.error e => Except.error e
    | Except.ok occ =>
      match acc with
      | Except.error e => Except.error e
      | Except.ok res =>
        Except.ok (if inWindow occ today then (r.name, strftimeDMY occ) :: res else res)

/-- The loop of `get_upcoming_birthdays` over the dict entries, threading the
(unmodified) book state through each iteration. -/
def upcomingLoop (today : Date) :
    List (String × Record) → AddressBook →
    Except String (List (String × String)) × AddressBook
  | [], book => (Except.ok [], book)
  | (_, r) :: rest, book =>
    let p := upcomingLoop today rest book
    (upcomingStep today r p.1, p.2)

/-- Model of `AddressBook.get_upcoming_birthdays` (lines 66-76), with `today` passed as
a parameter (the source reads `datetime.now().date()`): returns the list of
`(name, formatted occurrence)` pairs in iteration order, or the first raised
error, together with the book state after the call. -/
def AddressBook.get_upcoming_birthdays (book : AddressBook) (today : Date) :
    Except String (List (String × String)) × AddressBook :=
  upcomingLoop today book.data book

/-! Section: the dispatcher's `add` command (`src/hw_8_1.py` lines 96-112). -/

/-- Model of `PHONE_PATTERN.match(phone)` for the anchored pattern of ten digit
characters (line 96). -/
def pyPhonePattern (s : String) : Bool :=
  decide (s.length = 10) && s.data.all Char.isDigit

/-- Model of `add_contact` (lines 98-112) for a two-element argument list, under the
`input_error` wrapper that converts a raised `ValueError` into its message:
returns the book after the call and the reply string. -/
def add_contact (name phone : String) (book : AddressBook) : AddressBook × String :=
  if pyPhonePattern phone = false then
    (book, "Invalid phone number format. Please enter a 10-digit number.")
  else
    match book.find name with
    | none =>
      match (Record.mkNew name).add_phone phone with
      | (_, some e) => (book, e)
      | (record, none) => (book.add_record record, "Contact added.")
    | some record =>
      match record.add_phone phone with
      | (record2, some e) => (⟨dictSet book.data name record2⟩, e)
      | (record2, none) => (⟨dictSet book.data name record2⟩, "Phone added.")

/-! Section: operation sequences on an `AddressBook`. -/

/-- The mutating surface of `AddressBook` named by the invariant claim. -/
inductive BookOp where
  | addRecord (r : Record)
  | findOp (name : String)
  | delete (name : String)
  deriving Repr

/-- Apply one operation to the book (`find` only reads). -/
def applyOp (book : AddressBook) : BookOp → AddressBook
  | BookOp.addRecord r => book.add_record r
  | BookOp.findOp _ => book
  | BookOp.delete n => book.delete n

/-- Apply a sequence of operations from left to right. -/
def applyOps (book : AddressBook) (ops : List BookOp) : AddressBook :=
  ops.foldl applyOp book

/-- The mapping invariant: every key equals the `name` of its record, and no
two entries share a key. -/
def bookInv (book : AddressBook) : Prop :=
  (∀ kr ∈ book.data, kr.1 = kr.2.name) ∧ (book.data.map Prod.fst).Nodup

/-- Number of entries stored under key `k`. -/
def countKey (l : List (String × Record)) (k : String) : Nat :=
  l.countP (fun kr => decide (kr.1 = k))

/-! Section: helper lemmas. -/

/-- Lemma: `Char.isDigit` tests exactly for the decimal digits `'0'..'9'`. -/
lemma charIsDigit_iff (c : Char) : c.isDigit = true ↔ ('0' ≤ c ∧ c ≤ '9') := by
  simp only [Char.isDigit, Bool.and_eq_true, decide_eq_true_eq, ge_iff_le]
  exact Iff.rfl

/-- The loop of `get_upcoming_birthdays` returns the book state it was given. -/
lemma upcomingLoop_state (today : Date) :
    ∀ (l : List (String × Record)) (book : AddressBook),
      (upcomingLoop today l book).2 = book := by
  intro l
  induction l with
  | nil => intro book; rfl
  | cons hd tl ih =>
    intro book
    obtain ⟨k, r⟩ := hd
    simpa [upcomingLoop] using ih book

/-! Section: the claims. -/

/-- Claim C8: if `add_phone` or `add_birthday` raises a validation error, the
record is left exactly as it was: both construct (and validate) the new field
value before touching any state. -/
theorem no_partial_mutation_on_error :
    (∀ (r : Record) (s e : String),
      (Record.add_phone r s).2 = some e → (Record.add_phone r s).1 = r) ∧
    (∀ (r : Record) (s e : String),
      (Record.add_birthday r s).2 = some e → (Record.add_birthday r s).1 = r) := by
  constructor
  · intro r s e
    unfold Record.add_phone
    by_cases hg : (r.phones.any fun p => pyStrEqPhone s p) = true
    · simp [hg]
    · simp only [Bool.not_eq_true] at hg
      cases hm : mkPhone s with
      | error e0 => simp [hg, hm]
      | ok p => simp [hg, hm]
  · intro r s e
    unfold Record.add_birthday
    cases hm : mkBirthday s with
    | error e0 => simp [hm]
    | ok v => simp [hm]

/-- Witness for C8: an invalid phone and an invalid birthday leave a concrete
record unchanged. -/
theorem no_partial_mutation_on_error_witness :
    ((Record.mkNew "X").add_phone "12").1 = Record.mkNew "X" ∧
    ((Record.mkNew "X").add_birthday "nonsense").1 = Record.mkNew "X" :=
  ⟨no_partial_mutation_on_error.1 (Record.mkNew "X") "12"
      "Phone number must contain 10 digits." (by rfl),
   no_partial_mutation_on_error.2 (Record.mkNew "X") "nonsense"
      "Invalid date format. Use DD.MM.YYYY" (by rfl)⟩

/-- Claim C10: `get_upcoming_birthdays` is a read-only query — the book after
the call equals the book before it (all records, names, phones, birthdays). -/
theorem upcoming_birthdays_readonly (book : AddressBook) (today : Date) :
    (AddressBook.get_upcoming_birthdays book today).2 = book :=
  upcomingLoop_state today book.data book

/-- Claim C2 (code bug): `add_phone` is **not** idempotent — the guard
`phone not in self.phones` compares a `str` against `Phone` objects, which is
always false, so adding the same valid number twice stores two equal phones
(the claim and the spec say exactly one). -/
theorem add_phone_duplicate_eval :
    (((Record.mkNew "X").add_phone "1234567890").1.add_phone "1234567890").1.phones.map phoneStr
      = ["1234567890", "1234567890"] := by rfl

/-- Claim C3 (code bug): `edit_phone` never replaces anything — its guard
`old_phone in self.phones` compares a `str` against `Phone` objects, which is
always false, so even when a stored phone's string value equals `old_phone`
the call is a silent no-op, and an invalid `new_phone` raises nothing. -/
theorem edit_phone_noop_eval :
    phoneStr ⟨"1234567890"⟩ = "1234567890" ∧
    Record.edit_phone ⟨"X", [⟨"1234567890"⟩], none⟩ "1234567890" "0987654321"
      = (⟨"X", [⟨"1234567890"⟩], none⟩, none) ∧
    Record.edit_phone ⟨"X", [⟨"1234567890"⟩], none⟩ "1234567890" "bad"
      = (⟨"X", [⟨"1234567890"⟩], none⟩, none) :=
  ⟨rfl, rfl, rfl⟩

/-- Counterexample to claim C5 as stated: a single-digit day and month field
is accepted (the `%d` and `%m` directives of `strptime` also match one
digit), not rejected. -/
theorem birthday_single_digit_accepted_cex :
    mkBirthday "1.1.2020" = Except.ok "1.1.2020" := by rfl

/-- Claim C5 (amended): `Birthday` fails with the single validation error
unless the raw string parses as day.month.year denoting a real calendar date;
it rejects non-existent dates such as "31.02.2024" and "00.01.2020" and
non-numeric components, but day and month components may be one or two digits
(zero-padding is optional), with a four-digit year. -/
theorem birthday_validation_amended :
    (∀ (s : String) (d : Date), pyStrptimeDMY s = some d →
      1 ≤ d.year ∧ d.year ≤ 9999 ∧ 1 ≤ d.month ∧ d.month ≤ 12 ∧
        1 ≤ d.day ∧ d.day ≤ daysInMonth d.year d.month) ∧
    (∀ s : String, mkBirthday s = Except.ok s ∨
      mkBirthday s = Except.error "Invalid date format. Use DD.MM.YYYY") ∧
    mkBirthday "31.02.2024" = Except.error "Invalid date format. Use DD.MM.YYYY" ∧
    mkBirthday "00.01.2020" = Except.error "Invalid date format. Use DD.MM.YYYY" ∧
    mkBirthday "aa.bb.cccc" = Except.error "Invalid date format. Use DD.MM.YYYY" ∧
    mkBirthday "1.1.2020" = Except.ok "1.1.2020" := by
  refine ⟨?_, ?_, by rfl, by rfl, by rfl, by rfl⟩
  · intro s d h
    unfold pyStrptimeDMY at h
    split at h
    · split at h
      · split at h
        · rename_i hvalid
          cases h
          exact hvalid
        · cases h
      · cases h
    · cases h
  · intro s
    rcases h : pyStrptimeDMY s with _ | d <;> simp [mkBirthday, h]

/-- Witness for the amended C5: the accepted birthday "12.06.1990" denotes a
real calendar date. -/
theorem birthday_validation_amended_witness :
    1 ≤ 1990 ∧ 1990 ≤ 9999 ∧ 1 ≤ 6 ∧ 6 ≤ 12 ∧ 1 ≤ 12 ∧ 12 ≤ daysInMonth 1990 6 :=
  birthday_validation_amended.1 "12.06.1990" ⟨12, 6, 1990⟩ (by rfl)

/-- Claim C4: a string of exactly 10 decimal digits yields a `Phone` that
renders back to the same string; any other string fails with the validation
error. -/
theorem phone_validation_correct (s : String) :
    ((s.length = 10 ∧ ∀ c ∈ s.data, '0' ≤ c ∧ c ≤ '9') →
      mkPhone s = Except.ok ⟨s⟩ ∧ phoneStr ⟨s⟩ = s) ∧
    (¬(s.length = 10 ∧ ∀ c ∈ s.data, '0' ≤ c ∧ c ≤ '9') →
      ∃ e, mkPhone s = Except.error e) := by
  constructor
  · rintro ⟨hlen, hall⟩
    have hne : s.data ≠ [] := by
      intro h0
      have : s.length = 0 := by simp [String.length, h0]
      omega
    have hid : pyIsdigit s = true := by
      unfold pyIsdigit
      rw [Bool.and_eq_true]
      refine ⟨by simp [List.isEmpty_iff, hne], ?_⟩
      rw [List.all_eq_true]
      intro c hc
      exact (charIsDigit_iff c).mpr (hall c hc)
    unfold mkPhone
    rw [if_neg]
    · exact ⟨rfl, rfl⟩
    · simp [hid, hlen]
  · intro h
    unfold mkPhone
    rw [if_pos]
    · exact ⟨_, rfl⟩
    · by_cases hlen : s.length = 10
      · left
        have hb : ¬∀ c ∈ s.data, '0' ≤ c ∧ c ≤ '9' := fun hb => h ⟨hlen, hb⟩
        by_contra hid
        rw [Bool.not_eq_false] at hid
        unfold pyIsdigit at hid
        rw [Bool.and_eq_true, List.all_eq_true] at hid
        exact hb (fun c hc => (charIsDigit_iff c).mp (hid.2 c hc))
      · right; exact hlen

/-- Witness for C4: a valid 10-digit string is accepted and rendered back, a
short string is rejected. -/
theorem phone_validation_witness :
    (mkPhone "0123456789" = Except.ok ⟨"0123456789"⟩ ∧
      phoneStr ⟨"0123456789"⟩ = "0123456789") ∧
    (∃ e, mkPhone "123" = Except.error e) :=
  ⟨(phone_validation_correct "0123456789").1 (by decide),
   (phone_validation_correct "123").2 (by decide)⟩

/-- The successor of a leap year is never a leap year. -/
lemma leap_succ_false (y : Nat) (h : isLeapYear y = true) :
    isLeapYear (y + 1) = false := by
  unfold isLeapYear at h ⊢
  rw [Bool.and_eq_true] at h
  have h4 : y % 4 = 0 := by simpa using h.1
  have h1 : (y + 1) % 4 = 1 := by omega
  simp [h1]

/-- A February-29 birthday makes the occurrence computation raise whenever the
year it targets is not a leap year: directly when `today`'s year is not leap,
and after the roll-forward (to the never-leap successor year) when this
year's February 29 already precedes `today`. -/
lemma occOf_feb29_error (b : String) (today : Date) (y : Nat)
    (hparse : pyStrptimeDMY b = some ⟨29, 2, y⟩)
    (htarget : isLeapYear today.year = false ∨ dateLt ⟨29, 2, today.year⟩ today) :
    ∃ e, occOf b today = Except.error e := by
  unfold occOf
  rw [hparse]
  by_cases hv : pyDateValid today.year 2 29
  · have hleap : isLeapYear today.year = true := by
      obtain ⟨-, -, -, -, -, hd⟩ := hv
      by_contra hnl
      rw [Bool.not_eq_true] at hnl
      simp [daysInMonth, hnl] at hd
    rcases htarget with hnl | hlt
    · rw [hleap] at hnl; cases hnl
    · have hnl2 : isLeapYear (today.year + 1) = false := leap_succ_false _ hleap
      have hv2 : ¬ pyDateValid (today.year + 1) 2 29 := by
        rintro ⟨-, -, -, -, -, hd⟩
        simp [daysInMonth, hnl2] at hd
      simp only [dateReplaceYear, if_pos hv, if_neg hv2]
      rw [if_pos hlt]
      exact ⟨_, rfl⟩
  · simp only [dateReplaceYear, if_neg hv]
    exact ⟨_, rfl⟩

/-- Processing one record on an already-failed accumulator stays a failure. -/
lemma upcomingStep_error (today : Date) (r : Record) (e : String) :
    ∃ e2, upcomingStep today r (Except.error e) = Except.error e2 := by
  cases hb : r.birthday with
  | none => exact ⟨e, by simp [upcomingStep, hb]⟩
  | some b =>
    cases ho : occOf b today with
    | error e1 => exact ⟨e1, by simp [upcomingStep, hb, ho]⟩
    | ok occ => exact ⟨e, by simp [upcomingStep, hb, ho]⟩

/-- A record whose occurrence computation raises makes its own step raise. -/
lemma upcomingStep_occ_error (today : Date) (r : Record) (b e0 : String)
    (acc : Except String (List (String × String)))
    (hb : r.birthday = some b) (he : occOf b today = Except.error e0) :
    upcomingStep today r acc = Except.error e0 := by
  simp [upcomingStep, hb, he]

/-- If any record of the iterated list has a birthday whose occurrence
computation raises, the whole loop raises. -/
lemma upcoming_error_of_record (today : Date) :
    ∀ (l : List (String × Record)) (book : AddressBook) (k : String)
      (r : Record) (b : String),
      (k, r) ∈ l → r.birthday = some b →
      (∃ e0, occOf b today = Except.error e0) →
      ∃ e, (upcomingLoop today l book).1 = Except.error e := by
  intro l
  induction l with
  | nil => intro book k r b hmem; cases hmem
  | cons hd tl ih =>
    intro book k r b hmem hb hocc
    obtain ⟨k0, r0⟩ := hd
    have hcons : (upcomingLoop today ((k0, r0) :: tl) book).1
        = upcomingStep today r0 (upcomingLoop today tl book).1 := rfl
    rcases List.mem_cons.mp hmem with heq | htl
    · injection heq with h1 h2
      subst h1
      subst h2
      obtain ⟨e0, he0⟩ := hocc
      exact ⟨e0, by rw [hcons, upcomingStep_occ_error today r b e0 _ hb he0]⟩
    · obtain ⟨e, he⟩ := ih book k r b htl hb hocc
      rw [hcons, he]
      exact upcomingStep_error today r0 e

/-- Claim C6: a book containing a February-29 birthday makes
`get_upcoming_birthdays` raise (return an error, not a result) whenever the
target year used to construct the occurrence is not a leap year — either
`today`'s year is not leap, or this year's February 29 has passed and the
roll-forward targets the (never leap) next year.  The code does not
special-case this. -/
theorem feb29_nonleap_errors (book : AddressBook) (today : Date)
    (k : String) (r : Record) (b : String) (y : Nat)
    (hmem : (k, r) ∈ book.data) (hb : r.birthday = some b)
    (hparse : pyStrptimeDMY b = some ⟨29, 2, y⟩)
    (htarget : isLeapYear today.year = false ∨ dateLt ⟨29, 2, today.year⟩ today) :
    ∃ e, (AddressBook.get_upcoming_birthdays book today).1 = Except.error e :=
  upcoming_error_of_record today book.data book k r b hmem hb
    (occOf_feb29_error b today y hparse htarget)

/-- A concrete book with one February-29 birthday. -/
def bookFeb29 : AddressBook := ⟨[("Leap", ⟨"Leap", [], some "29.02.2000"⟩)]⟩

/-- Witness for C6: on 10.06.2023 (a non-leap year) the query over
`bookFeb29` fails. -/
theorem feb29_nonleap_errors_witness :
    ∃ e, (AddressBook.get_upcoming_birthdays bookFeb29 ⟨10, 6, 2023⟩).1
      = Except.error e :=
  feb29_nonleap_errors bookFeb29 ⟨10, 6, 2023⟩ "Leap" ⟨"Leap", [], some "29.02.2000"⟩
    "29.02.2000" 2000 (by simp [bookFeb29]) rfl (by rfl) (Or.inl (by rfl))

/-- Every name appearing in a successful result of the loop is the name of
some record of the iterated list. -/
lemma upcoming_names (today : Date) :
    ∀ (l : List (String × Record)) (book : AddressBook)
      (res : List (String × String)) (n s : String),
      (upcomingLoop today l book).1 = Except.ok res → (n, s) ∈ res →
      n ∈ l.map (fun kr => kr.2.name) := by
  intro l
  induction l with
  | nil =>
    intro book res n s h hm
    simp only [upcomingLoop, Except.ok.injEq] at h
    subst h
    cases hm
  | cons hd tl ih =>
    intro book res n s h hm
    obtain ⟨k0, r0⟩ := hd
    have hcons : (upcomingLoop today ((k0, r0) :: tl) book).1
        = upcomingStep today r0 (upcomingLoop today tl book).1 := rfl
    rw [hcons] at h
    rw [List.map_cons, List.mem_cons]
    cases hb : r0.birthday with
    | none =>
      simp only [upcomingStep, hb] at h
      exact Or.inr (ih book res n s h hm)
    | some b =>
      cases ho : occOf b today with
      | error e => simp [upcomingStep, hb, ho] at h
      | ok occ =>
        cases hr : (upcomingLoop today tl book).1 with
        | error e => simp [upcomingStep, hb, ho, hr] at h
        | ok res2 =>
          simp only [upcomingStep, hb, ho, hr, Except.ok.injEq] at h
          by_cases hw : inWindow occ today
          · rw [if_pos hw] at h
            subst h
            rcases List.mem_cons.mp hm with hpair | hm2
            · exact Or.inl (congrArg Prod.fst hpair)
            · exact Or.inr (ih book res2 n s hr hm2)
          · rw [if_neg hw] at h
            subst h
            exact Or.inr (ih book res2 n s hr hm)

/-- For a successful run of the loop over a list of records with pairwise
distinct names, a record with a birthday contributes its pair to the result
exactly when its (possibly rolled-forward) occurrence passes the window
test. -/
lemma upcoming_window_mem (today : Date) :
    ∀ (l : List (String × Record)) (book : AddressBook)
      (res : List (String × String)),
      (upcomingLoop today l book).1 = Except.ok res →
      (l.map (fun kr => kr.2.name)).Nodup →
      ∀ (k : String) (r : Record), (k, r) ∈ l →
      ∀ b : String, r.birthday = some b →
      ∃ occ, occOf b today = Except.ok occ ∧
        (((r.name, strftimeDMY occ) ∈ res) ↔ inWindow occ today) := by
  intro l
  induction l with
  | nil => intro book res h hnd k r hmem; cases hmem
  | cons hd tl ih =>
    intro book res h hnd k r hmem b hb
    obtain ⟨k0, r0⟩ := hd
    have hcons : (upcomingLoop today ((k0, r0) :: tl) book).1
        = upcomingStep today r0 (upcomingLoop today tl book).1 := rfl
    rw [hcons] at h
    rw [List.map_cons, List.nodup_cons] at hnd
    obtain ⟨hn0, hndtl⟩ := hnd
    rcases List.mem_cons.mp hmem with heq | htl
    · injection heq with h1 h2
      subst h1
      subst h2
      cases ho : occOf b today with
      | error e =>
        rw [upcomingStep_occ_error today r b e _ hb ho] at h
        cases h
      | ok occ =>
        refine ⟨occ, rfl, ?_⟩
        cases hr : (upcomingLoop today tl book).1 with
        | error e => simp [upcomingStep, hb, ho, hr] at h
        | ok res2 =>
          simp only [upcomingStep, hb, ho, hr, Except.ok.injEq] at h
          by_cases hw : inWindow occ today
          · rw [if_pos hw] at h
            subst h
            exact ⟨fun _ => hw, fun _ => List.mem_cons_self _ _⟩
          · rw [if_neg hw] at h
            subst h
            constructor
            · intro hmemres
              exact absurd (upcoming_names today tl book res2 r.name _ hr hmemres) hn0
            · intro hw2
              exact absurd hw2 hw
    · cases hb0 : r0.birthday with
      | none =>
        simp only [upcomingStep, hb0] at h
        exact ih book res h hndtl k r htl b hb
      | some b0 =>
        cases ho0 : occOf b0 today with
        | error e =>
          rw [upcomingStep_occ_error today r0 b0 e _ hb0 ho0] at h
          cases h
        | ok occ0 =>
          cases hr : (upcomingLoop today tl book).1 with
          | error e => simp [upcomingStep, hb0, ho0, hr] at h
          | ok res2 =>
            simp only [upcomingStep, hb0, ho0, hr, Except.ok.injEq] at h
            obtain ⟨occ, hocc, hiff⟩ := ih book res2 hr hndtl k r htl b hb
            refine ⟨occ, hocc, ?_⟩
            by_cases hw0 : inWindow occ0 today
            · rw [if_pos hw0] at h
              subst h
              have hne : r.name ≠ r0.name := by
                intro hEq
                apply hn0
                rw [← hEq]
                exact List.mem_map_of_mem (fun kr => kr.2.name) htl
              rw [List.mem_cons]
              constructor
              · rintro (hpair | hmem2)
                · exact absurd (congrArg Prod.fst hpair) hne
                · exact hiff.mp hmem2
              · intro hw
                exact Or.inr (hiff.mpr hw)
            · rw [if_neg hw0] at h
              subst h
              exact hiff

/-- Claim C1: whenever `get_upcoming_birthdays` returns a result over a book
with pairwise distinct record names, each record with a birthday has a
well-defined occurrence — this year's (day, month) in `today`'s year, rolled
forward one year when it precedes `today` — and appears in the result exactly
when that occurrence is at most 7 days after `today` (a closed window
containing both bounds). -/
theorem upcoming_birthdays_window_correct (book : AddressBook) (today : Date)
    (res : List (String × String))
    (hok : (AddressBook.get_upcoming_birthdays book today).1 = Except.ok res)
    (hnames : (book.data.map (fun kr => kr.2.name)).Nodup)
    (k : String) (r : Record) (hmem : (k, r) ∈ book.data)
    (b : String) (hb : r.birthday = some b) :
    ∃ occ, occOf b today = Except.ok occ ∧
      (((r.name, strftimeDMY occ) ∈ res) ↔ inWindow occ today) :=
  upcoming_window_mem today book.data book res hok hnames k r hmem b hb

/-- Records of the spec's window scenario. -/
def recA : Record := ⟨"A", [], some "12.06.1990"⟩

/-- Second record of the spec's window scenario (already passed this year). -/
def recB : Record := ⟨"B", [], some "09.06.1985"⟩

/-- Book of the spec's window scenario. -/
def bookAB : AddressBook := ⟨[("A", recA), ("B", recB)]⟩

/-- Witness for C1: on 10.06.2024 record A (birthday 12.06.1990) has
occurrence 12.06.2024 and is selected exactly because it is within 7 days. -/
theorem upcoming_birthdays_window_witness :
    ∃ occ, occOf "12.06.1990" ⟨10, 6, 2024⟩ = Except.ok occ ∧
      ((("A", strftimeDMY occ) ∈ [("A", "12.06.2024")]) ↔
        inWindow occ ⟨10, 6, 2024⟩) :=
  upcoming_birthdays_window_correct bookAB ⟨10, 6, 2024⟩ [("A", "12.06.2024")]
    (by rfl) (by decide) "A" recA (by simp [bookAB]) "12.06.1990" rfl

/-- Looking up the key just assigned returns the assigned record. -/
lemma dictGet_dictSet_self (l : List (String × Record)) (k : String) (v : Record) :
    dictGet (dictSet l k v) k = some v := by
  induction l with
  | nil => simp [dictSet, dictGet]
  | cons hd tl ih =>
    obtain ⟨k0, v0⟩ := hd
    by_cases h : k0 = k
    · simp [dictSet, dictGet, h]
    · simp [dictSet, dictGet, h, ih]

/-- An absent key has no stored entries. -/
lemma dictGet_none_countKey (l : List (String × Record)) (k : String)
    (h : dictGet l k = none) : countKey l k = 0 := by
  induction l with
  | nil => rfl
  | cons hd tl ih =>
    obtain ⟨k0, v0⟩ := hd
    by_cases hk : k0 = k
    · simp [dictGet, hk] at h
    · rw [dictGet, if_neg hk] at h
      simpa [countKey, List.countP_cons, hk] using ih h

/-- Assigning an absent key stores exactly one entry under it. -/
lemma countKey_dictSet_of_absent (l : List (String × Record)) (k : String)
    (v : Record) (h : dictGet l k = none) : countKey (dictSet l k v) k = 1 := by
  induction l with
  | nil => simp [dictSet, countKey, List.countP_cons]
  | cons hd tl ih =>
    obtain ⟨k0, v0⟩ := hd
    by_cases hk : k0 = k
    · simp [dictGet, hk] at h
    · rw [dictGet, if_neg hk] at h
      simpa [dictSet, hk, countKey, List.countP_cons] using ih h

/-- Assigning a key stored exactly once keeps it stored exactly once. -/
lemma countKey_dictSet_of_one (l : List (String × Record)) (k : String)
    (v : Record) (h : countKey l k = 1) : countKey (dictSet l k v) k = 1 := by
  induction l with
  | nil => simp [countKey] at h
  | cons hd tl ih =>
    obtain ⟨k0, v0⟩ := hd
    by_cases hk : k0 = k
    · subst hk
      rw [show dictSet ((k0, v0) :: tl) k0 v = (k0, v) :: tl from by simp [dictSet]]
      unfold countKey at h ⊢
      rw [List.countP_cons] at h ⊢
      simp at h ⊢
      exact h
    · rw [show dictSet ((k0, v0) :: tl) k v = (k0, v0) :: dictSet tl k v from by
        simp [dictSet, hk]]
      unfold countKey at h ⊢
      rw [List.countP_cons] at h ⊢
      simp [hk] at h ⊢
      exact ih h

/-- A phone string matching the dispatcher's 10-digit pattern passes the
`Phone` constructor and is stored as given. -/
lemma mkPhone_of_pattern (p : String) (hp : pyPhonePattern p = true) :
    mkPhone p = Except.ok ⟨p⟩ := by
  unfold pyPhonePattern at hp
  rw [Bool.and_eq_true, decide_eq_true_eq] at hp
  obtain ⟨hlen, hall⟩ := hp
  have hne : p.data ≠ [] := by
    intro h0
    have : p.data.length = 10 := hlen
    rw [h0] at this
    simp at this
  unfold mkPhone
  rw [if_neg]
  rintro (h1 | h2)
  · unfold pyIsdigit at h1
    rw [hall] at h1
    simp [List.isEmpty_iff, hne] at h1
  · exact h2 hlen

/-- Evaluation of `add_phone` with a validly constructed phone appends it: the duplicate
guard compares a string against `Phone` objects and never fires. -/
lemma add_phone_eval (r : Record) (p : String) (hok : mkPhone p = Except.ok ⟨p⟩) :
    Record.add_phone r p = ({ r with phones := r.phones ++ [⟨p⟩] }, none) := by
  unfold Record.add_phone
  rw [if_neg (by simp [pyStrEqPhone])]
  rw [hok]

/-- Claim C7: the dispatcher's `add` is an upsert — on a fresh name it creates
the record with the given phone, on an existing name it appends the phone;
adding two phones under one name yields exactly one record holding both
phones in order. -/
theorem add_contact_upsert (book : AddressBook) (name p1 p2 : String)
    (h1 : pyPhonePattern p1 = true) (h2 : pyPhonePattern p2 = true)
    (habs : book.find name = none) :
    ∃ r : Record,
      (add_contact name p2 (add_contact name p1 book).1).1.find name = some r ∧
      r.phones.map phoneStr = [p1, p2] ∧
      countKey (add_contact name p2 (add_contact name p1 book).1).1.data name = 1 ∧
      (add_contact name p1 book).2 = "Contact added." ∧
      (add_contact name p2 (add_contact name p1 book).1).2 = "Phone added." := by
  have hmk1 := mkPhone_of_pattern p1 h1
  have hmk2 := mkPhone_of_pattern p2 h2
  have hstep1 : add_contact name p1 book
      = (book.add_record ⟨name, [⟨p1⟩], none⟩, "Contact added.") := by
    unfold add_contact
    rw [if_neg (by simp [h1])]
    rw [habs]
    rw [add_phone_eval (Record.mkNew name) p1 hmk1]
    rfl
  have hfind1 : (book.add_record ⟨name, [⟨p1⟩], none⟩).find name
      = some ⟨name, [⟨p1⟩], none⟩ := by
    unfold AddressBook.add_record AddressBook.find
    exact dictGet_dictSet_self book.data name _
  have hstep2 : add_contact name p2 (book.add_record ⟨name, [⟨p1⟩], none⟩)
      = (⟨dictSet (book.add_record ⟨name, [⟨p1⟩], none⟩).data name
            ⟨name, [⟨p1⟩, ⟨p2⟩], none⟩⟩, "Phone added.") := by
    unfold add_contact
    rw [if_neg (by simp [h2])]
    simp only [hfind1]
    rw [add_phone_eval ⟨name, [⟨p1⟩], none⟩ p2 hmk2]
    rfl
  refine ⟨⟨name, [⟨p1⟩, ⟨p2⟩], none⟩, ?_, ?_, ?_, ?_, ?_⟩
  · rw [hstep1]
    rw [hstep2]
    unfold AddressBook.find
    exact dictGet_dictSet_self _ name _
  · simp [phoneStr]
  · rw [hstep1, hstep2]
    have c1 : countKey (dictSet book.data name ⟨name, [⟨p1⟩], none⟩) name = 1 :=
      countKey_dictSet_of_absent book.data name _ habs
    exact countKey_dictSet_of_one _ name _ c1
  · rw [hstep1]
  · rw [hstep1, hstep2]

/-- Witness for C7: the spec's scenario — add("Bob","1111111111") then
add("Bob","2222222222") into the empty book. -/
theorem add_contact_upsert_witness :
    ∃ r : Record,
      (add_contact "Bob" "2222222222" (add_contact "Bob" "1111111111" ⟨[]⟩).1).1.find "Bob"
        = some r ∧
      r.phones.map phoneStr = ["1111111111", "2222222222"] ∧
      countKey (add_contact "Bob" "2222222222"
        (add_contact "Bob" "1111111111" ⟨[]⟩).1).1.data "Bob" = 1 ∧
      (add_contact "Bob" "1111111111" (⟨[]⟩ : AddressBook)).2 = "Contact added." ∧
      (add_contact "Bob" "2222222222" (add_contact "Bob" "1111111111" ⟨[]⟩).1).2
        = "Phone added." :=
  add_contact_upsert ⟨[]⟩ "Bob" "1111111111" "2222222222" (by decide) (by decide) rfl

/-- Every entry of `dictSet l k v` is an old entry or the new pair. -/
lemma mem_dictSet (l : List (String × Record)) (k : String) (v : Record) :
    ∀ kr, kr ∈ dictSet l k v → kr ∈ l ∨ kr = (k, v) := by
  induction l with
  | nil =>
    intro kr h
    simp [dictSet] at h
    exact Or.inr h
  | cons hd tl ih =>
    obtain ⟨k0, v0⟩ := hd
    intro kr h
    by_cases hk : k0 = k
    · simp only [dictSet, if_pos hk, List.mem_cons] at h
      rcases h with h | h
      · exact Or.inr h
      · exact Or.inl (List.mem_cons_of_mem _ h)
    · simp only [dictSet, if_neg hk, List.mem_cons] at h
      rcases h with h | h
      · exact Or.inl (by simp [h])
      · rcases ih kr h with h2 | h2
        · exact Or.inl (List.mem_cons_of_mem _ h2)
        · exact Or.inr h2

/-- Every key of `dictSet l k v` is an old key or the assigned key. -/
lemma keys_dictSet_sub (l : List (String × Record)) (k : String) (v : Record) :
    ∀ a, a ∈ (dictSet l k v).map Prod.fst → a ∈ l.map Prod.fst ∨ a = k := by
  intro a ha
  rw [List.mem_map] at ha
  obtain ⟨kr, hkr, rfl⟩ := ha
  rcases mem_dictSet l k v kr hkr with h | h
  · exact Or.inl (List.mem_map_of_mem _ h)
  · exact Or.inr (by rw [h])

/-- Dict assignment keeps the keys pairwise distinct. -/
lemma nodup_keys_dictSet (l : List (String × Record)) (k : String) (v : Record)
    (h : (l.map Prod.fst).Nodup) : ((dictSet l k v).map Prod.fst).Nodup := by
  induction l with
  | nil => simp [dictSet]
  | cons hd tl ih =>
    obtain ⟨k0, v0⟩ := hd
    rw [List.map_cons, List.nodup_cons] at h
    obtain ⟨hnot, htl⟩ := h
    by_cases hk : k0 = k
    · subst hk
      rw [show dictSet ((k0, v0) :: tl) k0 v = (k0, v) :: tl from by simp [dictSet]]
      rw [List.map_cons, List.nodup_cons]
      exact ⟨hnot, htl⟩
    · rw [show dictSet ((k0, v0) :: tl) k v = (k0, v0) :: dictSet tl k v from by
        simp [dictSet, hk]]
      rw [List.map_cons, List.nodup_cons]
      refine ⟨?_, ih htl⟩
      intro ha
      rcases keys_dictSet_sub tl k v k0 ha with h2 | h2
      · exact hnot h2
      · exact hk h2

/-- Operation `add_record` preserves the book invariant. -/
lemma bookInv_addRecord (book : AddressBook) (r : Record) (h : bookInv book) :
    bookInv (book.add_record r) := by
  obtain ⟨hkeys, hnd⟩ := h
  constructor
  · intro kr hkr
    rcases mem_dictSet book.data r.name r kr hkr with hm | hm
    · exact hkeys kr hm
    · rw [hm]
  · exact nodup_keys_dictSet book.data r.name r hnd

/-- Operation `delete` preserves the book invariant. -/
lemma bookInv_delete (book : AddressBook) (n : String) (h : bookInv book) :
    bookInv (book.delete n) := by
  obtain ⟨hkeys, hnd⟩ := h
  have hsub : List.Sublist (book.data.eraseP (fun kr => decide (kr.1 = n))) book.data :=
    List.eraseP_sublist book.data
  constructor
  · intro kr hkr
    exact hkeys kr (hsub.subset hkr)
  · exact hnd.sublist (hsub.map Prod.fst)

/-- Claim C9: every book satisfying the mapping invariant — each key equals
its record's `name`, and no two entries share a key — still satisfies it
after any sequence of `add_record`, `find` and `delete` operations; hence
every book reachable from such a book (in particular from the empty book)
satisfies it. -/
theorem book_invariant_preserved (ops : List BookOp) (book : AddressBook)
    (h : bookInv book) : bookInv (applyOps book ops) := by
  induction ops generalizing book with
  | nil => exact h
  | cons op rest ih =>
    cases op with
    | addRecord r => exact ih _ (bookInv_addRecord book r h)
    | findOp n => exact ih _ h
    | delete n => exact ih _ (bookInv_delete book n h)

/-- Witness for C9: a concrete operation sequence from the empty book keeps
the invariant. -/
theorem book_invariant_preserved_witness :
    bookInv (applyOps ⟨[]⟩
      [BookOp.addRecord ⟨"Ann", [⟨"0123456789"⟩], none⟩,
       BookOp.addRecord ⟨"Bob", [], some "12.06.1990"⟩,
       BookOp.findOp "Ann",
       BookOp.delete "Ann"]) :=
  book_invariant_preserved _ ⟨[]⟩
    ⟨fun kr h => absurd h (List.not_mem_nil kr), List.nodup_nil⟩
